import Mathlib

set_option linter.unnecessarySeqFocus false
set_option linter.unreachableTactic false
set_option linter.unusedTactic false

/-!
Shallow embedding of the "mango" envelope-budgeting ledger
(`src/types.ts` data model and the mutation handlers of the main
application component) together with proofs about its mutation
operations.

Modelling conventions:
* JavaScript numbers reaching the ledger are either plain decimal
  amounts or `NaN` (the result of `parseFloat` on unparseable text).
  They are embedded as `JsNum`: a rational or `nan`; `+`/`-` propagate
  `nan` exactly as JavaScript arithmetic does.
* `parseFloat` itself is an external browser primitive; a form amount
  field is therefore embedded as the pair of the two observations the
  handlers make of it: whether the raw text is the empty string
  (JavaScript falsiness of a string) and the `parseFloat` result.
* `Math.random`-based id generation and `new Date()` timestamps are
  external nondeterminism and are passed to each handler as explicit
  arguments (`freshId`, `today`).
* JavaScript `String.prototype.trim` is modelled by the structurally
  recursive `jsTrim`; the template-literal rendering of a number inside a
  transaction description is modelled by `JsNum.display` (the precise
  digit string is presentation-only and is never inspected).
* Each React handler reads the current month from component state and
  ends in `updateMonth`, replacing that month in the year; it is
  embedded as a pure function from the current `MonthBudget` (plus the
  form state it reads) to the new `MonthBudget`.  A guard `return`
  becomes returning the month unchanged.
-/

namespace Mango

/-- `MonthStatus` from `src/types.ts`. -/
inductive MonthStatus where
  | NOT_STARTED
  | ACTIVE
  | COMPLETED
deriving DecidableEq, Repr

/-- `TransactionType` from `src/types.ts`. -/
inductive TransactionType where
  | EXPENSE
  | TRANSFER_IN
  | TRANSFER_OUT
deriving DecidableEq, Repr

/-- A JavaScript number as the ledger produces it: a decimal amount
(embedded as a rational) or `NaN`. -/
inductive JsNum where
  | nan
  | num (q : ℚ)
deriving DecidableEq, Repr

namespace JsNum

/-- JavaScript `+` on numbers (`NaN` propagates). -/
def add : JsNum → JsNum → JsNum
  | num a, num b => num (a + b)
  | _, _ => nan

/-- JavaScript `-` on numbers (`NaN` propagates). -/
def sub : JsNum → JsNum → JsNum
  | num a, num b => num (a - b)
  | _, _ => nan

/-- JavaScript `x || 0` applied to a number: `NaN` and `0` are falsy,
so the result is `0` exactly when `x` is `NaN` or `0`. -/
def orZero : JsNum → ℚ
  | nan => 0
  | num q => q

/-- Template-literal rendering of a number (presentation only; no
theorem inspects the digits). -/
def display : JsNum → String
  | nan => "NaN"
  | num q => toString q

end JsNum

/-- `Transaction` from `src/types.ts`.  The optional
`fromCategory`/`toCategory` fields are declared there but never set by
any handler. -/
structure Transaction where
  id : String
  date : String
  description : String
  amount : JsNum
  type : TransactionType
  fromCategory : Option String := none
  toCategory : Option String := none
deriving DecidableEq, Repr

/-- `Category` from `src/types.ts`. -/
structure Category where
  id : String
  name : String
  icon : String
  allocatedAmount : JsNum
  transactions : List Transaction
deriving DecidableEq, Repr

/-- `MonthBudget` from `src/types.ts`. -/
structure MonthBudget where
  monthIndex : Nat
  year : Int
  status : MonthStatus
  totalBudget : JsNum
  note : Option String := none
  categories : List Category
deriving DecidableEq, Repr

/-- `BudgetYear` from `src/types.ts`. -/
structure BudgetYear where
  year : Int
  months : List MonthBudget
deriving DecidableEq, Repr

/-- An amount input field, as observed by the handlers: whether the raw
text is the empty string, and the `parseFloat` result (`nan` when the
text does not parse). -/
structure AmountField where
  isBlank : Bool
  parsed : JsNum
deriving DecidableEq, Repr

/-- One row of the setup modal's category list
(`{name: string, amount: string}`); the amount string is kept as its
`parseFloat` result, the only way `finalizeSetup` and
`computedSetupTotal` observe it. -/
structure SetupEntry where
  name : String
  amount : JsNum
deriving DecidableEq, Repr

/-- The expense modal's form state. -/
structure ExpenseForm where
  amount : AmountField
  note : String
  date : String
deriving DecidableEq, Repr

/-- The transfer modal's form state. -/
structure TransferForm where
  amount : AmountField
  fromCategoryId : String
  note : String
deriving DecidableEq, Repr

/-- The top-up modal's form state. -/
structure TopUpForm where
  amount : AmountField
  note : String
deriving DecidableEq, Repr

/-- JavaScript `String.prototype.trim`: drop leading and trailing
whitespace.  (Defined by structural recursion over the character list
so that concrete instances evaluate.) -/
def jsTrim (s : String) : String :=
  ⟨((s.data.dropWhile Char.isWhitespace).reverse.dropWhile Char.isWhitespace).reverse⟩

/-- `computedSetupTotal`: reduce over all setup rows of
`parseFloat(amount) || 0`. -/
def computedSetupTotal (setupCategories : List SetupEntry) : ℚ :=
  setupCategories.foldl (fun acc curr => acc + curr.amount.orZero) 0

/-- The filter predicate of `finalizeSetup`:
`sc.name.trim() !== '' && (parseFloat(sc.amount) || 0) > 0`. -/
def isValidSetupEntry (sc : SetupEntry) : Bool :=
  (jsTrim sc.name) != "" && decide (0 < sc.amount.orZero)

/-- The category built by `finalizeSetup` from the `i`-th valid row. -/
def mkSetupCategory (freshIds : Nat → String) (p : Nat × SetupEntry) : Category :=
  { id := freshIds p.1
    name := jsTrim p.2.name
    icon := jsTrim p.2.name
    allocatedAmount := .num p.2.amount.orZero
    transactions := [] }

/-- `finalizeSetup`. -/
def finalizeSetup (m : MonthBudget) (setupCategories : List SetupEntry)
    (setupNote : String) (freshIds : Nat → String) : MonthBudget :=
  let validCategories := setupCategories.filter isValidSetupEntry
  if validCategories.length = 0 then m
  else
    { m with
      status := .ACTIVE
      totalBudget := .num (computedSetupTotal setupCategories)
      note := some (jsTrim setupNote)
      categories := validCategories.enum.map (mkSetupCategory freshIds) }

/-- `handleAddNewCategory`. -/
def handleAddNewCategory (m : MonthBudget) (newCatName : String)
    (newCatAmount : JsNum) (freshId : String) : MonthBudget :=
  let amount := newCatAmount.orZero
  if (jsTrim newCatName) == "" then m
  else
    { m with
      categories := m.categories ++
        [{ id := freshId, name := (jsTrim newCatName), icon := (jsTrim newCatName),
           allocatedAmount := .num amount, transactions := [] }]
      totalBudget := m.totalBudget.add (.num amount) }

/-- `deleteCategory`; the `window.confirm` gate is the `confirmed`
argument. -/
def deleteCategory (m : MonthBudget) (id : String) (confirmed : Bool) : MonthBudget :=
  if !confirmed then m
  else
    match m.categories.find? (fun c => c.id == id) with
    | none => m
    | some cat =>
      { m with
        categories := m.categories.filter (fun c => c.id != id)
        totalBudget := m.totalBudget.sub cat.allocatedAmount }

/-- The two directions of `moveCategory`. -/
inductive MoveDirection where
  | UP
  | DOWN
deriving DecidableEq, Repr

/-- `moveCategory`: find the index by id, compute the adjacent target
index, bail out when it is out of bounds, otherwise splice the entry
out and splice it back in at the target index. -/
def moveCategory (m : MonthBudget) (id : String) (direction : MoveDirection) : MonthBudget :=
  match m.categories.findIdx? (fun c => c.id == id) with
  | none => m
  | some index =>
    let targetIndex : Int := match direction with
      | .UP => (index : Int) - 1
      | .DOWN => (index : Int) + 1
    if targetIndex < 0 ∨ (m.categories.length : Int) ≤ targetIndex then m
    else
      match m.categories[index]? with
      | none => m
      | some removed =>
        { m with
          categories := (m.categories.eraseIdx index).insertIdx targetIndex.toNat removed }

/-- `addExpense`. -/
def addExpense (m : MonthBudget) (selectedCategory : Option Category)
    (expenseForm : ExpenseForm) (freshId : String) : MonthBudget :=
  match selectedCategory with
  | none => m
  | some sel =>
    if expenseForm.amount.isBlank then m
    else
      let amount := expenseForm.amount.parsed
      let newTransaction : Transaction :=
        { id := freshId
          date := expenseForm.date
          description := if (jsTrim expenseForm.note) == "" then "Expense" else (jsTrim expenseForm.note)
          amount := amount
          type := .EXPENSE }
      { m with
        categories := m.categories.map (fun c =>
          if c.id == sel.id then
            { c with transactions := c.transactions ++ [newTransaction] }
          else c) }

/-- `handleTopUp`. -/
def handleTopUp (m : MonthBudget) (selectedCategory : Option Category)
    (topUpForm : TopUpForm) (freshId : String) (today : String) : MonthBudget :=
  match selectedCategory with
  | none => m
  | some sel =>
    if topUpForm.amount.isBlank then m
    else
      let amount := topUpForm.amount.parsed
      let inTrans : Transaction :=
        { id := freshId
          date := today
          description := if (jsTrim topUpForm.note) == "" then "Add +$" ++ amount.display
                         else (jsTrim topUpForm.note)
          amount := amount
          type := .TRANSFER_IN }
      { m with
        categories := m.categories.map (fun c =>
          if c.id == sel.id then
            { c with
              allocatedAmount := c.allocatedAmount.add amount
              transactions := c.transactions ++ [inTrans] }
          else c)
        totalBudget := m.totalBudget.add amount }

/-- `handleTransfer`.  `selectedCategory` is the destination envelope;
the source is looked up by the form's `fromCategoryId`. -/
def handleTransfer (m : MonthBudget) (selectedCategory : Option Category)
    (transferForm : TransferForm) (freshIdOut freshIdIn : String)
    (today : String) : MonthBudget :=
  match selectedCategory with
  | none => m
  | some sel =>
    if transferForm.amount.isBlank ∨ transferForm.fromCategoryId == "" then m
    else
      let amount := transferForm.amount.parsed
      match m.categories.find? (fun c => c.id == transferForm.fromCategoryId) with
      | none => m
      | some fromCat =>
        let note := (jsTrim transferForm.note)
        let outTrans : Transaction :=
          { id := freshIdOut, date := today
            description := if note == "" then "To " ++ sel.name else "Out: " ++ note
            amount := amount, type := .TRANSFER_OUT }
        let inTrans : Transaction :=
          { id := freshIdIn, date := today
            description := if note == "" then "From " ++ fromCat.name else "In: " ++ note
            amount := amount, type := .TRANSFER_IN }
        { m with
          categories := m.categories.map (fun c =>
            if c.id == fromCat.id then
              { c with
                allocatedAmount := c.allocatedAmount.sub amount
                transactions := c.transactions ++ [outTrans] }
            else if c.id == sel.id then
              { c with
                allocatedAmount := c.allocatedAmount.add amount
                transactions := c.transactions ++ [inTrans] }
            else c) }

/-- The Finalize/Unlock button: toggle `COMPLETED ↔ ACTIVE`. -/
def toggleMonthStatus (m : MonthBudget) : MonthBudget :=
  { m with
    status := if m.status = .COMPLETED then .ACTIVE else .COMPLETED }

/-- The Edit Budget modal's save handler:
`totalBudget: parseFloat(editTotalValue) || 0`. -/
def editBudgetSave (m : MonthBudget) (editTotalValue : JsNum) : MonthBudget :=
  { m with totalBudget := .num editTotalValue.orZero }

/-- `handleCopyPlan`, acting on the whole year.  The
"overwrite next month's setup?" `window.confirm` gate is the
`confirmOverwrite` argument; fresh category ids are supplied by
`freshIds`. -/
def handleCopyPlan (y : BudgetYear) (selectedMonthIndex : Nat)
    (confirmOverwrite : Bool) (freshIds : Nat → String) : BudgetYear :=
  let nextMonthIndex := selectedMonthIndex + 1
  if 11 < nextMonthIndex then y
  else
    match y.months[selectedMonthIndex]?, y.months[nextMonthIndex]? with
    | some currentMonth, some nextMonth =>
      if nextMonth.status ≠ .NOT_STARTED ∧ !confirmOverwrite then y
      else
        let copiedCategories : List Category :=
          currentMonth.categories.enum.map (fun p =>
            { p.2 with id := freshIds p.1, transactions := [] })
        { y with
          months := y.months.set nextMonthIndex
            { nextMonth with
              status := .ACTIVE
              totalBudget := currentMonth.totalBudget
              note := currentMonth.note
              categories := copiedCategories } }
    | _, _ => y

/-- The `TRANSFER_OUT` record `handleTransfer` creates (`sel` is the
destination envelope whose name appears in the default description). -/
def outTransaction (sel : Category) (amount : JsNum) (note oid today : String) : Transaction :=
  { id := oid
    date := today
    description := if (jsTrim note) == "" then "To " ++ sel.name else "Out: " ++ (jsTrim note)
    amount := amount
    type := .TRANSFER_OUT }

/-- The `TRANSFER_IN` record `handleTransfer` creates (`fromCat` is
the source envelope whose name appears in the default description). -/
def inTransaction (fromCat : Category) (amount : JsNum) (note iid today : String) : Transaction :=
  { id := iid
    date := today
    description := if (jsTrim note) == "" then "From " ++ fromCat.name else "In: " ++ (jsTrim note)
    amount := amount
    type := .TRANSFER_IN }

/-- The `TRANSFER_IN` record `handleTopUp` creates. -/
def topUpTransaction (amount : JsNum) (note fid today : String) : Transaction :=
  { id := fid
    date := today
    description := if (jsTrim note) == "" then "Add +$" ++ amount.display else (jsTrim note)
    amount := amount
    type := .TRANSFER_IN }

/-- The `EXPENSE` record `addExpense` creates. -/
def expenseTransaction (amount : JsNum) (note fid date : String) : Transaction :=
  { id := fid
    date := date
    description := if (jsTrim note) == "" then "Expense" else (jsTrim note)
    amount := amount
    type := .EXPENSE }

/-- The per-category update `handleTransfer` maps over the month once
its guards have passed and the source envelope `X` has been found
(`Y` is the destination). -/
def transferUpdate (X Y : Category) (p : JsNum) (note oid iid today : String)
    (c : Category) : Category :=
  if c.id == X.id then
    { c with
      allocatedAmount := c.allocatedAmount.sub p
      transactions := c.transactions ++ [outTransaction Y p note oid today] }
  else if c.id == Y.id then
    { c with
      allocatedAmount := c.allocatedAmount.add p
      transactions := c.transactions ++ [inTransaction X p note iid today] }
  else c

/-- The per-category update `handleTopUp` maps over the month once its
guards have passed (`C` is the selected envelope). -/
def topUpUpdate (C : Category) (p : JsNum) (note fid today : String) (c : Category) : Category :=
  if c.id == C.id then
    { c with
      allocatedAmount := c.allocatedAmount.add p
      transactions := c.transactions ++ [topUpTransaction p note fid today] }
  else c

/-- The per-category update `addExpense` maps over the month once its
guards have passed (`C` is the selected envelope). -/
def expenseUpdate (C : Category) (p : JsNum) (note fid date : String) (c : Category) : Category :=
  if c.id == C.id then
    { c with transactions := c.transactions ++ [expenseTransaction p note fid date] }
  else c

/-- Look a category up by id, as the handlers do
(`categories.find(c => c.id === id)`). -/
def catById (m : MonthBudget) (id : String) : Option Category :=
  m.categories.find? (fun c => c.id == id)

/-- The month's total number of transactions, across all categories. -/
def txCount (m : MonthBudget) : Nat :=
  (m.categories.map (fun c => c.transactions.length)).sum

/-- The sum of the allocations of a list of categories (JavaScript
addition, so a `nan` allocation poisons the sum exactly as it would on
screen). -/
def allocFold (l : List Category) : JsNum :=
  l.foldr (fun c acc => c.allocatedAmount.add acc) (.num 0)

/-- The sum of all allocations in a month. -/
def allocSum (m : MonthBudget) : JsNum :=
  allocFold m.categories

/-! Concrete sample data, used to instantiate the theorems below on
closed inputs. -/

/-- A sample envelope. -/
def sampleX : Category :=
  { id := "x", name := "Rent", icon := "Rent", allocatedAmount := .num 1200, transactions := [] }

/-- A second sample envelope. -/
def sampleY : Category :=
  { id := "y", name := "Groceries", icon := "Groceries", allocatedAmount := .num 400, transactions := [] }

/-- A sample active month holding the two sample envelopes. -/
def sampleMonth : MonthBudget :=
  { monthIndex := 0, year := 2025, status := .ACTIVE, totalBudget := .num 1600,
    note := none, categories := [sampleX, sampleY] }

/-- A sample month that has not been set up yet. -/
def sampleFreshMonth : MonthBudget :=
  { monthIndex := 0, year := 2025, status := .NOT_STARTED, totalBudget := .num 0,
    note := none, categories := [] }

/-- A sample year: twelve not-started months, with the sample month in
January. -/
def sampleYearData : BudgetYear :=
  { year := 2025, months := (List.replicate 12 sampleFreshMonth).set 0 sampleMonth }

/-! Helper lemmas. -/

/-- Adding `NaN` (on the right) poisons a JavaScript sum. -/
theorem JsNum.add_nan (x : JsNum) : x.add .nan = .nan := by
  cases x <;> rfl

/-- `(x - a) + S = (x + S) - a`, also through `NaN`. -/
theorem JsNum.sub_add_left (x S : JsNum) (a : ℚ) :
    (x.sub (.num a)).add S = (x.add S).sub (.num a) := by
  cases x <;> cases S <;> simp [add, sub]
  ring

/-- `x + (S - a) = (x + S) - a`, also through `NaN`. -/
theorem JsNum.add_sub_right (x S : JsNum) (a : ℚ) :
    x.add (S.sub (.num a)) = (x.add S).sub (.num a) := by
  cases x <;> cases S <;> simp [add, sub]
  ring

/-- Transfers are zero-sum on the two touched allocations, whatever the
values involved (`NaN` included). -/
theorem JsNum.sub_add_cancel_pair (x y : JsNum) (a : ℚ) :
    (x.sub (.num a)).add (y.add (.num a)) = x.add y := by
  cases x <;> cases y <;> simp [add, sub]

/-- A per-category update that never changes ids commutes with the
handlers' lookup-by-id. -/
theorem find?_map_of_id (g : Category → Category) (hg : ∀ c, (g c).id = c.id)
    (l : List Category) (t : String) :
    (l.map g).find? (fun c => c.id == t) = (l.find? (fun c => c.id == t)).map g := by
  induction l with
  | nil => rfl
  | cons c l ih =>
    rw [List.map_cons, List.find?_cons, List.find?_cons]
    have hgc : ((g c).id == t) = (c.id == t) := by rw [hg]
    rw [hgc]
    cases (c.id == t) with
    | true => rfl
    | false => simpa using ih

/-- Per-category transaction-count bookkeeping for a mapped update. -/
theorem sum_map_txlen (g : Category → Category) (d : Category → Nat)
    (h : ∀ c, (g c).transactions.length = c.transactions.length + d c) (l : List Category) :
    ((l.map g).map (fun c => c.transactions.length)).sum
      = (l.map (fun c => c.transactions.length)).sum + (l.map d).sum := by
  induction l with
  | nil => rfl
  | cons c l ih =>
    simp only [List.map_cons, List.sum_cons, h, ih]
    omega

/-- Summing the indicator of a single id gives a `countP`. -/
theorem sum_indicator_single (l : List Category) (s : String) :
    (l.map (fun c => if c.id == s then 1 else 0)).sum
      = l.countP (fun c => c.id == s) := by
  induction l with
  | nil => rfl
  | cons c l ih =>
    simp only [List.map_cons, List.sum_cons, List.countP_cons, ih]
    omega

/-- Summing the indicator of two distinct ids gives two `countP`s. -/
theorem sum_indicator_pair (l : List Category) (s t : String) (hst : s ≠ t) :
    (l.map (fun c => if c.id == s then 1 else if c.id == t then 1 else 0)).sum
      = l.countP (fun c => c.id == s) + l.countP (fun c => c.id == t) := by
  induction l with
  | nil => rfl
  | cons c l ih =>
    simp only [List.map_cons, List.sum_cons, List.countP_cons, ih]
    by_cases h1 : c.id = s
    · have h2 : ¬ c.id = t := fun h => hst (h1.symm.trans h)
      have e1 : (c.id == s) = true := by simp [h1]
      have e2 : (c.id == t) = false := by simp [h2]
      simp [e1, e2] <;> omega
    · have e1 : (c.id == s) = false := by simp [h1]
      by_cases h2 : c.id = t
      · have e2 : (c.id == t) = true := by simp [h2]
        simp [e1, e2] <;> omega
      · have e2 : (c.id == t) = false := by simp [h2]
        simp [e1, e2] <;> omega

/-- In a month whose category ids are distinct, each present id is hit
exactly once. -/
theorem countP_id_eq_one {l : List Category} (hnd : (l.map (fun c => c.id)).Nodup)
    {X : Category} (hX : X ∈ l) : l.countP (fun c => c.id == X.id) = 1 := by
  have h1 : l.countP (fun c => c.id == X.id)
      = (l.map (fun c => c.id)).countP (fun i => i == X.id) := by
    rw [List.countP_map]; rfl
  have h2 : (l.map (fun c => c.id)).countP (fun i => i == X.id)
      = (l.map (fun c => c.id)).count X.id := rfl
  rw [h1, h2]
  exact List.count_eq_one_of_mem hnd (List.mem_map.mpr ⟨X, hX, rfl⟩)

/-- An allocation-preserving mapped update preserves the allocation sum. -/
theorem allocFold_congr (g : Category → Category) (l : List Category)
    (h : ∀ c ∈ l, (g c).allocatedAmount = c.allocatedAmount) :
    allocFold (l.map g) = allocFold l := by
  induction l with
  | nil => rfl
  | cons c l ih =>
    simp only [List.map_cons, allocFold, List.foldr_cons]
    rw [h c (by simp)]
    have := ih (fun d hd => h d (by simp [hd]))
    simp only [allocFold] at this
    rw [this]

/-- A mapped update that subtracts `a` from the allocation of exactly
one category subtracts `a` from the allocation sum. -/
theorem allocFold_map_sub (g : Category → Category) (a : ℚ) (p : Category → Bool)
    (hyes : ∀ c, p c = true → (g c).allocatedAmount = c.allocatedAmount.sub (.num a))
    (hno : ∀ c, p c = false → (g c).allocatedAmount = c.allocatedAmount)
    (l : List Category) (h1 : l.countP p = 1) :
    allocFold (l.map g) = (allocFold l).sub (.num a) := by
  induction l with
  | nil => simp [List.countP_nil] at h1
  | cons c l ih =>
    rw [List.countP_cons] at h1
    simp only [List.map_cons, allocFold, List.foldr_cons]
    cases hc : p c with
    | true =>
      have hl : l.countP p = 0 := by rw [hc] at h1; simpa using h1
      have hz : ∀ d ∈ l, (g d).allocatedAmount = d.allocatedAmount := by
        intro d hd
        exact hno d (by
          have := List.countP_eq_zero.mp hl d hd
          simpa using this)
      have hcong := allocFold_congr g l hz
      simp only [allocFold] at hcong
      rw [hyes c hc, hcong, JsNum.sub_add_left]
    | false =>
      have hl : l.countP p = 1 := by rw [hc] at h1; simpa using h1
      have := ih hl
      simp only [allocFold] at this
      rw [hno c hc, this, JsNum.add_sub_right]

/-- Re-inserting the `i`-th element in front of its own erasure is a
permutation of the original list. -/
theorem cons_getElem_eraseIdx_perm {α : Type _} (l : List α) (i : Nat) (h : i < l.length) :
    List.Perm (l[i] :: l.eraseIdx i) l := by
  induction l generalizing i with
  | nil => simp at h
  | cons a l ih =>
    cases i with
    | zero => simp
    | succ n =>
      have hn : n < l.length := by simpa using h
      have step := (ih n hn).cons a
      simp only [List.getElem_cons_succ, List.eraseIdx_cons_succ]
      exact (List.Perm.swap a (l[n]) (l.eraseIdx n)).trans step

/-- `findIdx?` on a list ending in the unique match finds the last
position. -/
theorem findIdx?_append_singleton (p : Category → Bool) (init : List Category) (x : Category)
    (hinit : ∀ c ∈ init, p c = false) (hx : p x = true) (i : Nat) :
    List.findIdx? p (init ++ [x]) i = some (i + init.length) := by
  induction init generalizing i with
  | nil => simp [List.findIdx?_cons, hx]
  | cons c init ih =>
    have hc := hinit c (by simp)
    simp only [List.cons_append, List.findIdx?_cons, hc]
    rw [if_neg (by simp [hc]), ih (fun d hd => hinit d (by simp [hd])) (i + 1)]
    congr 1
    simp [List.length_cons]
    omega

/-- Once the guards pass and the source is found, `handleTransfer` is
exactly the `transferUpdate` map. -/
theorem handleTransfer_eq (m : MonthBudget) (Y X : Category) (fromId : String) (p : JsNum)
    (note oid iid today : String) (hid : fromId ≠ "")
    (hX : catById m fromId = some X) :
    handleTransfer m (some Y) ⟨⟨false, p⟩, fromId, note⟩ oid iid today
      = { m with categories := m.categories.map (transferUpdate X Y p note oid iid today) } := by
  simp only [catById] at hX
  unfold handleTransfer
  dsimp only
  rw [if_neg (by simp [hid]), hX]
  rfl

/-- `transferUpdate` never changes a category's id. -/
theorem transferUpdate_id (X Y : Category) (p : JsNum) (note oid iid today : String)
    (c : Category) :
    (transferUpdate X Y p note oid iid today c).id = c.id := by
  unfold transferUpdate
  split
  · rfl
  split
  · rfl
  · rfl

/-- `transferUpdate` on the source envelope. -/
theorem transferUpdate_src (X Y : Category) (p : JsNum) (note oid iid today : String) :
    transferUpdate X Y p note oid iid today X
      = { X with
          allocatedAmount := X.allocatedAmount.sub p
          transactions := X.transactions ++ [outTransaction Y p note oid today] } := by
  unfold transferUpdate
  rw [if_pos (by simp)]

/-- `transferUpdate` on the destination envelope (when distinct from
the source). -/
theorem transferUpdate_dest (X Y : Category) (p : JsNum) (note oid iid today : String)
    (hne : X.id ≠ Y.id) :
    transferUpdate X Y p note oid iid today Y
      = { Y with
          allocatedAmount := Y.allocatedAmount.add p
          transactions := Y.transactions ++ [inTransaction X p note iid today] } := by
  unfold transferUpdate
  rw [if_neg (by simp [Ne.symm hne]), if_pos (by simp)]

/-- `transferUpdate` leaves every non-participating envelope alone. -/
theorem transferUpdate_other (X Y : Category) (p : JsNum) (note oid iid today : String)
    (c : Category) (h1 : c.id ≠ X.id) (h2 : c.id ≠ Y.id) :
    transferUpdate X Y p note oid iid today c = c := by
  unfold transferUpdate
  rw [if_neg (by simp [h1]), if_neg (by simp [h2])]

/-- C3: For every month and every transfer of amount `a` from category
`X` to category `Y` with `X ≠ Y`, both existing in the month: the
resulting month has `X.allocatedAmount` decreased by `a` and
`Y.allocatedAmount` increased by `a` (so their sum is unchanged),
`totalBudget` is unchanged, and exactly two new `Transaction` records
are created — one `TRANSFER_OUT` appended to `X` and one `TRANSFER_IN`
appended to `Y`, both with amount `a` — in the same month replacement. -/
theorem transfer_between_distinct_envelopes
    (m : MonthBudget) (X Y : Category) (a : ℚ) (note oid iid today : String)
    (hid : X.id ≠ "")
    (hX : catById m X.id = some X)
    (hY : catById m Y.id = some Y)
    (hne : X.id ≠ Y.id)
    (hnd : (m.categories.map (fun c => c.id)).Nodup) :
    (handleTransfer m (some Y) ⟨⟨false, .num a⟩, X.id, note⟩ oid iid today).totalBudget
        = m.totalBudget
  ∧ catById (handleTransfer m (some Y) ⟨⟨false, .num a⟩, X.id, note⟩ oid iid today) X.id
        = some { X with
                 allocatedAmount := X.allocatedAmount.sub (.num a)
                 transactions := X.transactions ++ [outTransaction Y (.num a) note oid today] }
  ∧ catById (handleTransfer m (some Y) ⟨⟨false, .num a⟩, X.id, note⟩ oid iid today) Y.id
        = some { Y with
                 allocatedAmount := Y.allocatedAmount.add (.num a)
                 transactions := Y.transactions ++ [inTransaction X (.num a) note iid today] }
  ∧ (X.allocatedAmount.sub (.num a)).add (Y.allocatedAmount.add (.num a))
        = X.allocatedAmount.add Y.allocatedAmount
  ∧ (∀ c ∈ m.categories, c.id ≠ X.id → c.id ≠ Y.id →
        c ∈ (handleTransfer m (some Y) ⟨⟨false, .num a⟩, X.id, note⟩ oid iid today).categories)
  ∧ txCount (handleTransfer m (some Y) ⟨⟨false, .num a⟩, X.id, note⟩ oid iid today)
        = txCount m + 2
  ∧ (outTransaction Y (.num a) note oid today).type = .TRANSFER_OUT
  ∧ (outTransaction Y (.num a) note oid today).amount = .num a
  ∧ (inTransaction X (.num a) note iid today).type = .TRANSFER_IN
  ∧ (inTransaction X (.num a) note iid today).amount = .num a := by
  have heq := handleTransfer_eq m Y X X.id (.num a) note oid iid today hid hX
  have hgid := transferUpdate_id X Y (.num a) note oid iid today
  have hXl : X ∈ m.categories := List.mem_of_find?_eq_some hX
  have hYl : Y ∈ m.categories := List.mem_of_find?_eq_some hY
  refine ⟨?_, ?_, ?_, ?_, ?_, ?_, rfl, rfl, rfl, rfl⟩
  · rw [heq]
  · rw [heq]
    simp only [catById]
    rw [find?_map_of_id _ hgid]
    simp only [catById] at hX
    rw [hX, Option.map_some', transferUpdate_src]
  · rw [heq]
    simp only [catById]
    rw [find?_map_of_id _ hgid]
    simp only [catById] at hY
    rw [hY, Option.map_some', transferUpdate_dest X Y _ _ _ _ _ hne]
  · exact JsNum.sub_add_cancel_pair X.allocatedAmount Y.allocatedAmount a
  · intro c hc h1 h2
    rw [heq]
    exact List.mem_map.mpr ⟨c, hc, transferUpdate_other X Y _ _ _ _ _ c h1 h2⟩
  · rw [heq]
    unfold txCount
    dsimp only
    rw [sum_map_txlen _ (fun c => if c.id == X.id then 1 else if c.id == Y.id then 1 else 0)]
    · rw [sum_indicator_pair _ _ _ hne, countP_id_eq_one hnd hXl, countP_id_eq_one hnd hYl]
    · intro c
      unfold transferUpdate
      by_cases h1 : (c.id == X.id) = true
      · simp [h1]
      · by_cases h2 : (c.id == Y.id) = true <;> simp [h1, h2]

/-- Witness for C3 at concrete data: transfer 100 from `sampleX` to
`sampleY`. -/
theorem transfer_between_distinct_envelopes_witness :
    catById sampleMonth "x" = some sampleX
  ∧ catById sampleMonth "y" = some sampleY
  ∧ ("x" : String) ≠ "y"
  ∧ (sampleMonth.categories.map (fun c => c.id)).Nodup
  ∧ (handleTransfer sampleMonth (some sampleY)
      ⟨⟨false, .num 100⟩, "x", "fuel"⟩ "o1" "i1" "2025-01-02").totalBudget
      = sampleMonth.totalBudget :=
  ⟨by decide, by decide, by decide, by decide,
    (transfer_between_distinct_envelopes sampleMonth sampleX sampleY 100 "fuel" "o1" "i1"
      "2025-01-02" (by decide) (by decide) (by decide) (by decide) (by decide)).1⟩

/-- C10: the transfer handler does not enforce source ≠ destination:
transferring amount `a` from `C` to `C` itself appends only the single
`TRANSFER_OUT` record to `C`, decreases `C.allocatedAmount` by `a`
(no `TRANSFER_IN` is created anywhere: the month gains exactly one
transaction), and the sum of allocations across the month drops by `a`
instead of being preserved. -/
theorem transfer_same_envelope
    (m : MonthBudget) (C : Category) (a : ℚ) (note oid iid today : String)
    (hid : C.id ≠ "")
    (hC : catById m C.id = some C)
    (hnd : (m.categories.map (fun c => c.id)).Nodup) :
    catById (handleTransfer m (some C) ⟨⟨false, .num a⟩, C.id, note⟩ oid iid today) C.id
        = some { C with
                 allocatedAmount := C.allocatedAmount.sub (.num a)
                 transactions := C.transactions ++ [outTransaction C (.num a) note oid today] }
  ∧ (∀ c ∈ m.categories, c.id ≠ C.id →
        c ∈ (handleTransfer m (some C) ⟨⟨false, .num a⟩, C.id, note⟩ oid iid today).categories)
  ∧ txCount (handleTransfer m (some C) ⟨⟨false, .num a⟩, C.id, note⟩ oid iid today)
        = txCount m + 1
  ∧ allocSum (handleTransfer m (some C) ⟨⟨false, .num a⟩, C.id, note⟩ oid iid today)
        = (allocSum m).sub (.num a) := by
  have heq := handleTransfer_eq m C C C.id (.num a) note oid iid today hid hC
  have hgid := transferUpdate_id C C (.num a) note oid iid today
  have hCl : C ∈ m.categories := List.mem_of_find?_eq_some hC
  refine ⟨?_, ?_, ?_, ?_⟩
  · rw [heq]
    simp only [catById]
    rw [find?_map_of_id _ hgid]
    simp only [catById] at hC
    rw [hC, Option.map_some', transferUpdate_src]
  · intro c hc h1
    rw [heq]
    exact List.mem_map.mpr ⟨c, hc, transferUpdate_other C C _ _ _ _ _ c h1 h1⟩
  · rw [heq]
    unfold txCount
    dsimp only
    rw [sum_map_txlen _ (fun c => if c.id == C.id then 1 else 0)]
    · rw [sum_indicator_single, countP_id_eq_one hnd hCl]
    · intro c
      unfold transferUpdate
      by_cases h1 : (c.id == C.id) = true
      · simp [h1]
      · simp [h1]
  · rw [heq]
    unfold allocSum
    dsimp only
    exact allocFold_map_sub _ a (fun c => c.id == C.id)
      (fun c hc => by unfold transferUpdate; simp [hc])
      (fun c hc => by unfold transferUpdate; simp [hc])
      m.categories (countP_id_eq_one hnd hCl)

/-- Witness for C10: self-transfer of 50 on `sampleX`. -/
theorem transfer_same_envelope_witness :
    catById sampleMonth "x" = some sampleX
  ∧ (sampleMonth.categories.map (fun c => c.id)).Nodup
  ∧ txCount (handleTransfer sampleMonth (some sampleX)
      ⟨⟨false, .num 50⟩, "x", ""⟩ "o1" "i1" "2025-01-03") = txCount sampleMonth + 1 :=
  ⟨by decide, by decide,
    (transfer_same_envelope sampleMonth sampleX 50 "" "o1" "i1" "2025-01-03"
      (by decide) (by decide) (by decide)).2.2.1⟩

/-- Once its guard passes, `handleTopUp` is exactly the `topUpUpdate`
map plus the `totalBudget` bump. -/
theorem handleTopUp_eq (m : MonthBudget) (C : Category) (p : JsNum) (note fid today : String) :
    handleTopUp m (some C) ⟨⟨false, p⟩, note⟩ fid today
      = { m with
          categories := m.categories.map (topUpUpdate C p note fid today)
          totalBudget := m.totalBudget.add p } := by
  unfold handleTopUp
  dsimp only
  rw [if_neg (by simp)]
  rfl

/-- Once its guard passes, `addExpense` is exactly the `expenseUpdate`
map (in particular `totalBudget` is untouched). -/
theorem addExpense_eq (m : MonthBudget) (C : Category) (p : JsNum) (note fid date : String) :
    addExpense m (some C) ⟨⟨false, p⟩, note, date⟩ fid
      = { m with categories := m.categories.map (expenseUpdate C p note fid date) } := by
  unfold addExpense
  dsimp only
  rw [if_neg (by simp)]
  rfl

/-- `topUpUpdate` never changes a category's id. -/
theorem topUpUpdate_id (C : Category) (p : JsNum) (note fid today : String) (c : Category) :
    (topUpUpdate C p note fid today c).id = c.id := by
  unfold topUpUpdate
  split
  · rfl
  · rfl

/-- `expenseUpdate` never changes a category's id. -/
theorem expenseUpdate_id (C : Category) (p : JsNum) (note fid date : String) (c : Category) :
    (expenseUpdate C p note fid date c).id = c.id := by
  unfold expenseUpdate
  split
  · rfl
  · rfl

/-- C6: topping a selected category up by a parsed amount `a` increases
that category's `allocatedAmount` by exactly `a`, increases the month's
`totalBudget` by exactly the same `a`, appends one `TRANSFER_IN`
transaction of amount `a` to that category, and leaves every other
category unchanged. -/
theorem topup_adds_same_amount_to_allocation_and_total
    (m : MonthBudget) (C : Category) (a c0 t0 : ℚ) (note fid today : String)
    (hC : catById m C.id = some C)
    (hc0 : C.allocatedAmount = .num c0)
    (ht0 : m.totalBudget = .num t0) :
    catById (handleTopUp m (some C) ⟨⟨false, .num a⟩, note⟩ fid today) C.id
        = some { C with
                 allocatedAmount := .num (c0 + a)
                 transactions := C.transactions ++ [topUpTransaction (.num a) note fid today] }
  ∧ (handleTopUp m (some C) ⟨⟨false, .num a⟩, note⟩ fid today).totalBudget = .num (t0 + a)
  ∧ (topUpTransaction (.num a) note fid today).type = .TRANSFER_IN
  ∧ (topUpTransaction (.num a) note fid today).amount = .num a
  ∧ (∀ c ∈ m.categories, c.id ≠ C.id →
        c ∈ (handleTopUp m (some C) ⟨⟨false, .num a⟩, note⟩ fid today).categories) := by
  have heq := handleTopUp_eq m C (.num a) note fid today
  refine ⟨?_, ?_, rfl, rfl, ?_⟩
  · rw [heq]
    simp only [catById]
    rw [find?_map_of_id _ (topUpUpdate_id C (.num a) note fid today)]
    simp only [catById] at hC
    rw [hC, Option.map_some']
    unfold topUpUpdate
    rw [if_pos (by simp), hc0]
    rfl
  · rw [heq]
    dsimp only
    rw [ht0]
    rfl
  · intro c hc h1
    rw [heq]
    refine List.mem_map.mpr ⟨c, hc, ?_⟩
    unfold topUpUpdate
    rw [if_neg (by simp [h1])]

/-- Witness for C6: top `sampleY` up by 20. -/
theorem topup_adds_same_amount_witness :
    catById sampleMonth "y" = some sampleY
  ∧ sampleY.allocatedAmount = .num 400
  ∧ sampleMonth.totalBudget = .num 1600
  ∧ (handleTopUp sampleMonth (some sampleY) ⟨⟨false, .num 20⟩, "bonus"⟩ "t1"
      "2025-01-05").totalBudget = .num (1600 + 20) :=
  ⟨by decide, by decide, by decide,
    (topup_adds_same_amount_to_allocation_and_total sampleMonth sampleY 20 400 1600 "bonus"
      "t1" "2025-01-05" (by decide) (by decide) (by decide)).2.1⟩

/-- Counterexample to C5 as stated: submitting an expense whose
non-empty amount text fails to parse appends a transaction whose amount
is `NaN`, not `0`. -/
theorem nan_amount_zero_counterexample :
    (addExpense sampleMonth (some sampleX)
        ⟨⟨false, .nan⟩, "typo", "2025-01-06"⟩ "e1").categories.map
        (fun c => c.transactions.map (fun t => t.amount))
      = [[JsNum.nan], []]
  ∧ JsNum.nan ≠ JsNum.num 0 := by
  constructor
  · decide
  · decide

/-- C5 amended: a non-empty amount field that fails to parse is not
rejected — the expense proceeds and appends a transaction whose amount
is `NaN`; a top-up likewise proceeds, appending a `NaN`-amount
`TRANSFER_IN` and turning both the category's allocation and the
month's `totalBudget` into `NaN`. -/
theorem nan_amount_proceeds
    (m : MonthBudget) (C : Category) (enote d efid tnote tfid today : String)
    (hC : catById m C.id = some C) :
    catById (addExpense m (some C) ⟨⟨false, .nan⟩, enote, d⟩ efid) C.id
        = some { C with transactions := C.transactions ++ [expenseTransaction .nan enote efid d] }
  ∧ (expenseTransaction .nan enote efid d).amount = .nan
  ∧ catById (handleTopUp m (some C) ⟨⟨false, .nan⟩, tnote⟩ tfid today) C.id
        = some { C with
                 allocatedAmount := .nan
                 transactions := C.transactions ++ [topUpTransaction .nan tnote tfid today] }
  ∧ (handleTopUp m (some C) ⟨⟨false, .nan⟩, tnote⟩ tfid today).totalBudget = .nan := by
  have heqe := addExpense_eq m C .nan enote efid d
  have heqt := handleTopUp_eq m C .nan tnote tfid today
  refine ⟨?_, rfl, ?_, ?_⟩
  · rw [heqe]
    simp only [catById]
    rw [find?_map_of_id _ (expenseUpdate_id C .nan enote efid d)]
    simp only [catById] at hC
    rw [hC, Option.map_some']
    unfold expenseUpdate
    rw [if_pos (by simp)]
  · rw [heqt]
    simp only [catById]
    rw [find?_map_of_id _ (topUpUpdate_id C .nan tnote tfid today)]
    simp only [catById] at hC
    rw [hC, Option.map_some']
    unfold topUpUpdate
    rw [if_pos (by simp), JsNum.add_nan]
  · rw [heqt]
    dsimp only
    rw [JsNum.add_nan]

/-- Witness for the amended C5 at concrete data. -/
theorem nan_amount_proceeds_witness :
    catById sampleMonth "x" = some sampleX
  ∧ (handleTopUp sampleMonth (some sampleX) ⟨⟨false, .nan⟩, "oops"⟩ "t2"
      "2025-01-07").totalBudget = .nan :=
  ⟨by decide,
    (nan_amount_proceeds sampleMonth sampleX "n" "2025-01-06" "e1" "oops" "t2" "2025-01-07"
      (by decide)).2.2.2⟩

/-- `handleTransfer` never touches `totalBudget`, whatever its inputs. -/
theorem handleTransfer_totalBudget (m : MonthBudget) (sel : Option Category)
    (tf : TransferForm) (oid iid today : String) :
    (handleTransfer m sel tf oid iid today).totalBudget = m.totalBudget := by
  unfold handleTransfer
  cases sel with
  | none => rfl
  | some s =>
    dsimp only
    split
    · rfl
    split <;> rfl

/-- `addExpense` never touches `totalBudget`, whatever its inputs. -/
theorem addExpense_totalBudget (m : MonthBudget) (sel : Option Category)
    (ef : ExpenseForm) (fid : String) :
    (addExpense m sel ef fid).totalBudget = m.totalBudget := by
  unfold addExpense
  cases sel with
  | none => rfl
  | some s =>
    dsimp only
    split <;> rfl

/-- `moveCategory` never touches `totalBudget`. -/
theorem moveCategory_totalBudget (m : MonthBudget) (id : String) (dir : MoveDirection) :
    (moveCategory m id dir).totalBudget = m.totalBudget := by
  unfold moveCategory
  split
  · rfl
  dsimp only
  split
  · rfl
  split <;> rfl

/-- The Finalize/Unlock toggle never touches `totalBudget`. -/
theorem toggleMonthStatus_totalBudget (m : MonthBudget) :
    (toggleMonthStatus m).totalBudget = m.totalBudget := rfl

/-- Counterexample to C2 as stated: the Edit Budget modal's save
handler is a further public operation (beyond setup finalization,
top-up, category addition and category deletion) that changes
`totalBudget`. -/
theorem edit_budget_changes_total_counterexample :
    (editBudgetSave sampleMonth (.num 40)).totalBudget ≠ sampleMonth.totalBudget := by
  decide

/-- C2 amended: transfers, expenses, reordering and the
finalize/unlock toggle never change `totalBudget`; but besides setup
finalization, top-up, category addition and category deletion, the
Edit Budget save handler also overwrites `totalBudget` (with the
parsed value, `NaN` giving `0`). -/
theorem totalBudget_frame :
    (∀ (m : MonthBudget) (sel : Option Category) (tf : TransferForm) (oid iid today : String),
        (handleTransfer m sel tf oid iid today).totalBudget = m.totalBudget)
  ∧ (∀ (m : MonthBudget) (sel : Option Category) (ef : ExpenseForm) (fid : String),
        (addExpense m sel ef fid).totalBudget = m.totalBudget)
  ∧ (∀ (m : MonthBudget) (id : String) (dir : MoveDirection),
        (moveCategory m id dir).totalBudget = m.totalBudget)
  ∧ (∀ m : MonthBudget, (toggleMonthStatus m).totalBudget = m.totalBudget)
  ∧ (∀ (m : MonthBudget) (v : JsNum), (editBudgetSave m v).totalBudget = .num v.orZero) :=
  ⟨handleTransfer_totalBudget, addExpense_totalBudget, moveCategory_totalBudget,
    toggleMonthStatus_totalBudget, fun _ _ => rfl⟩

/-- `computedSetupTotal` is the plain sum of the parsed amounts of all
rows. -/
theorem computedSetupTotal_eq_sum (entries : List SetupEntry) :
    computedSetupTotal entries = (entries.map (fun e => e.amount.orZero)).sum := by
  have h : ∀ (l : List SetupEntry) (acc : ℚ),
      l.foldl (fun acc curr => acc + curr.amount.orZero) acc
        = acc + (l.map (fun e => e.amount.orZero)).sum := by
    intro l
    induction l with
    | nil => intro acc; simp
    | cons e l ih =>
      intro acc
      simp [ih]
      ring
  simpa [computedSetupTotal] using h entries 0

/-- Counterexample to C1 as stated: with rows `("A", 5)` and
`("", 7)` the only created category is the valid `("A", 5)`, but the
stored `totalBudget` is `12` — the sum over ALL rows — not the sum `5`
of the valid entries alone. -/
theorem setup_total_includes_invalid_counterexample :
    (finalizeSetup sampleFreshMonth [⟨"A", .num 5⟩, ⟨"", .num 7⟩] ""
        (fun _ => "f")).categories.map (fun c => (c.name, c.allocatedAmount))
      = [("A", JsNum.num 5)]
  ∧ (finalizeSetup sampleFreshMonth [⟨"A", .num 5⟩, ⟨"", .num 7⟩] ""
        (fun _ => "f")).totalBudget
      = .num (computedSetupTotal [⟨"A", .num 5⟩, ⟨"", .num 7⟩])
  ∧ computedSetupTotal [⟨"A", .num 5⟩, ⟨"", .num 7⟩] = 12
  ∧ (12 : ℚ) ≠ 5 := by
  refine ⟨by decide, rfl, by norm_num [computedSetupTotal, JsNum.orZero], by norm_num⟩

/-- C1 amended: finalizing setup with at least one valid row activates
the month, installs exactly the valid rows (trimmed name, parsed
amount, fresh id, no transactions) as the categories, and sets
`totalBudget` to the sum of the parsed amounts of ALL rows (`NaN`
contributing `0`) — so rows with an empty name or a negative parsed
amount still move `totalBudget` even though no category is created for
them. -/
theorem finalize_setup_spec
    (m : MonthBudget) (entries : List SetupEntry) (snote : String) (ids : Nat → String)
    (hval : entries.filter isValidSetupEntry ≠ [])
    (_hstatus : m.status = .NOT_STARTED) :
    (finalizeSetup m entries snote ids).status = .ACTIVE
  ∧ (finalizeSetup m entries snote ids).categories
      = (entries.filter isValidSetupEntry).enum.map (mkSetupCategory ids)
  ∧ (finalizeSetup m entries snote ids).totalBudget
      = .num ((entries.map (fun e => e.amount.orZero)).sum)
  ∧ (finalizeSetup m entries snote ids).note = some (jsTrim snote) := by
  unfold finalizeSetup
  dsimp only
  rw [if_neg (fun h => hval (List.length_eq_zero.mp h))]
  exact ⟨rfl, rfl, by rw [← computedSetupTotal_eq_sum], rfl⟩

/-- Witness for the amended C1: the example setup from the spec. -/
theorem finalize_setup_spec_witness :
    ([⟨"Groceries", .num 400⟩, ⟨"Rent", .num 1200⟩] : List SetupEntry).filter
        isValidSetupEntry ≠ []
  ∧ sampleFreshMonth.status = .NOT_STARTED
  ∧ (finalizeSetup sampleFreshMonth [⟨"Groceries", .num 400⟩, ⟨"Rent", .num 1200⟩]
      "Salary" (fun i => toString i)).status = .ACTIVE :=
  ⟨by decide, by decide,
    (finalize_setup_spec sampleFreshMonth [⟨"Groceries", .num 400⟩, ⟨"Rent", .num 1200⟩]
      "Salary" (fun i => toString i) (by decide) (by decide)).1⟩

/-- Counterexample to C4 as stated: a transfer whose amount parses to
`-1 ≤ 0` is still performed — both participating envelopes gain a
transaction record instead of the month being returned unchanged. -/
theorem transfer_accepts_nonpositive_counterexample :
    (JsNum.num (-1)).orZero ≤ 0
  ∧ (handleTransfer sampleMonth (some sampleY)
        ⟨⟨false, .num (-1)⟩, "x", ""⟩ "o1" "i1" "2025-01-08").categories.map
        (fun c => c.transactions.length) = [1, 1]
  ∧ sampleMonth.categories.map (fun c => c.transactions.length) = [0, 0] := by
  refine ⟨by norm_num [JsNum.orZero], by decide, by decide⟩

/-- C4 amended: setup entry validation does enforce positivity — if
every row's parsed amount is `NaN` or `≤ 0`, finalizing setup leaves
the month unchanged — but the transfer handler does not validate the
parsed amount at all: whenever the amount field is non-empty and the
source envelope exists, the transfer is carried out even when parsing
yields `NaN` or a value `≤ 0`. -/
theorem positive_amount_validation
    (m : MonthBudget) (entries : List SetupEntry) (snote : String) (ids : Nat → String)
    (X Y : Category) (p : JsNum) (note oid iid today : String)
    (hall : ∀ e ∈ entries, e.amount.orZero ≤ 0)
    (hid : X.id ≠ "")
    (hX : catById m X.id = some X) :
    finalizeSetup m entries snote ids = m
  ∧ handleTransfer m (some Y) ⟨⟨false, p⟩, X.id, note⟩ oid iid today
      = { m with categories := m.categories.map (transferUpdate X Y p note oid iid today) } := by
  constructor
  · unfold finalizeSetup
    dsimp only
    rw [if_pos]
    rw [List.length_eq_zero, List.filter_eq_nil_iff]
    intro e he
    simp only [isValidSetupEntry, Bool.and_eq_true, decide_eq_true_eq, not_and]
    intro _
    exact not_lt.mpr (hall e he)
  · exact handleTransfer_eq m Y X X.id p note oid iid today hid hX

/-- Witness for the amended C4: an all-invalid setup is refused while a
`-1` transfer goes through. -/
theorem positive_amount_validation_witness :
    (∀ e ∈ ([⟨"A", .num 0⟩, ⟨"B", .nan⟩] : List SetupEntry), e.amount.orZero ≤ 0)
  ∧ catById sampleMonth "x" = some sampleX
  ∧ finalizeSetup sampleMonth [⟨"A", .num 0⟩, ⟨"B", .nan⟩] "" (fun _ => "f")
      = sampleMonth :=
  ⟨by decide, by decide,
    (positive_amount_validation sampleMonth [⟨"A", .num 0⟩, ⟨"B", .nan⟩] ""
      (fun _ => "f") sampleX sampleY (.num (-1)) "" "o1" "i1" "2025-01-08"
      (by decide) (by decide) (by decide)).1⟩

/-- C7: deleting a present category (with the confirmation accepted)
removes exactly that category — the others keeping their order — and
decreases `totalBudget` by exactly its `allocatedAmount`; deleting an
absent id leaves the month unchanged. -/
theorem delete_category_spec (m : MonthBudget) (id : String) :
    (catById m id = none → deleteCategory m id true = m)
  ∧ (∀ (cat : Category) (t0 q : ℚ),
      catById m id = some cat →
      (m.categories.map (fun c => c.id)).Nodup →
      m.totalBudget = .num t0 →
      cat.allocatedAmount = .num q →
      (deleteCategory m id true).totalBudget = .num (t0 - q)
      ∧ ∃ pre post, m.categories = pre ++ cat :: post
          ∧ (deleteCategory m id true).categories = pre ++ post) := by
  constructor
  · intro hnone
    unfold deleteCategory
    simp only [catById] at hnone
    rw [hnone]
    rfl
  · intro cat t0 q hfind hnd ht0 hq
    simp only [catById] at hfind
    obtain ⟨hpcat, pre, post, hsplit, hpre⟩ := List.find?_eq_some.mp hfind
    have hcatid : cat.id = id := by simpa using hpcat
    have hprene : ∀ c ∈ pre, (c.id == id) = false := by
      intro c hc
      simpa using hpre c hc
    have hpostne : ∀ c ∈ post, (c.id == id) = false := by
      rw [hsplit, List.map_append, List.map_cons] at hnd
      have hnotin := (List.nodup_middle.mp hnd)
      rw [List.nodup_cons] at hnotin
      intro c hc
      have : cat.id ≠ c.id := by
        intro h
        exact hnotin.1 (by
          rw [List.mem_append]
          exact Or.inr (h ▸ List.mem_map.mpr ⟨c, hc, rfl⟩))
      simp [hcatid ▸ this.symm]
    have hfilter : m.categories.filter (fun c => c.id != id) = pre ++ post := by
      rw [hsplit, List.filter_append, List.filter_cons]
      have : (cat.id != id) = false := by simp [hcatid]
      rw [this]
      simp only [Bool.false_eq_true, if_false]
      rw [List.filter_eq_self.mpr
          (fun c hc => by simp only [bne, hprene c hc, Bool.not_false]),
        List.filter_eq_self.mpr
          (fun c hc => by simp only [bne, hpostne c hc, Bool.not_false])]
    have hrun : deleteCategory m id true
        = { m with
            categories := m.categories.filter (fun c => c.id != id)
            totalBudget := m.totalBudget.sub cat.allocatedAmount } := by
      unfold deleteCategory
      rw [hfind]
      rfl
    constructor
    · rw [hrun]
      dsimp only
      rw [ht0, hq]
      rfl
    · exact ⟨pre, post, hsplit, by rw [hrun]; exact hfilter⟩

/-- Witness for C7: deleting the absent id "z" is a no-op; deleting
"x" removes `sampleX` and lowers `totalBudget` to `1600 - 1200`. -/
theorem delete_category_spec_witness :
    catById sampleMonth "z" = none
  ∧ catById sampleMonth "x" = some sampleX
  ∧ deleteCategory sampleMonth "z" true = sampleMonth
  ∧ (deleteCategory sampleMonth "x" true).totalBudget = .num (1600 - 1200) :=
  ⟨by decide, by decide,
    (delete_category_spec sampleMonth "z").1 (by decide),
    ((delete_category_spec sampleMonth "x").2 sampleX 1600 1200 (by decide) (by decide)
      (by decide) (by decide)).1⟩

/-- C8: copy-plan from a source month with index < 11 (and the
overwrite gate satisfied) replaces the next month's categories with
copies of the source's categories — same name, icon and
`allocatedAmount`, freshly generated ids, empty transaction lists —
sets the next month's status to `ACTIVE` and copies `totalBudget` and
`note` from the source; from index 11 it is a no-op on the ledger. -/
theorem copy_plan_spec :
    (∀ (y : BudgetYear) (conf : Bool) (ids : Nat → String), handleCopyPlan y 11 conf ids = y)
  ∧ (∀ (y : BudgetYear) (i : Nat) (conf : Bool) (ids : Nat → String)
        (cur next : MonthBudget),
      i < 11 →
      y.months[i]? = some cur →
      y.months[i + 1]? = some next →
      (next.status = .NOT_STARTED ∨ conf = true) →
      handleCopyPlan y i conf ids
          = { y with months := y.months.set (i + 1)
                          ({ next with
                             status := .ACTIVE
                             totalBudget := cur.totalBudget
                             note := cur.note
                             categories := cur.categories.enum.map
                               (fun p => { p.2 with id := ids p.1, transactions := [] }) }) }
      ∧ (∀ c ∈ cur.categories.enum.map (fun p => { p.2 with id := ids p.1, transactions := [] }),
          c.transactions = [] ∧ ∃ j, c.id = ids j)
      ∧ ((∀ j, ids j ∉ cur.categories.map (fun c => c.id)) →
          ∀ c ∈ cur.categories.enum.map (fun p => { p.2 with id := ids p.1, transactions := [] }),
            c.id ∉ cur.categories.map (fun c => c.id))) := by
  constructor
  · intro y conf ids
    unfold handleCopyPlan
    rw [if_pos (by omega)]
  · intro y i conf ids cur next hi hcur hnext hgate
    refine ⟨?_, ?_, ?_⟩
    · unfold handleCopyPlan
      rw [if_neg (by omega), hcur, hnext]
      dsimp only
      rw [if_neg (by
        rcases hgate with h | h
        · simp [h]
        · simp [h])]
    · intro c hc
      obtain ⟨p, _, hp⟩ := List.mem_map.mp hc
      exact ⟨by rw [← hp], ⟨p.1, by rw [← hp]⟩⟩
    · intro hfresh c hc
      obtain ⟨p, _, hp⟩ := List.mem_map.mp hc
      rw [← hp]
      exact hfresh p.1

/-- Witness for C8: copy January of `sampleYearData` into February, and
the index-11 no-op. -/
theorem copy_plan_spec_witness :
    sampleYearData.months[0]? = some sampleMonth
  ∧ sampleYearData.months[1]? = some sampleFreshMonth
  ∧ sampleFreshMonth.status = .NOT_STARTED
  ∧ handleCopyPlan sampleYearData 11 false (fun i => toString i) = sampleYearData
  ∧ handleCopyPlan sampleYearData 0 false (fun i => toString i)
      = { sampleYearData with months := sampleYearData.months.set 1
                                           ({ sampleFreshMonth with
                                              status := .ACTIVE
                                              totalBudget := sampleMonth.totalBudget
                                              note := sampleMonth.note
                                              categories := sampleMonth.categories.enum.map
                                                (fun p => { p.2 with
                                                  id := (fun i => toString i) p.1,
                                                  transactions := [] }) }) } :=
  ⟨by decide, by decide, by decide,
    copy_plan_spec.1 sampleYearData false (fun i => toString i),
    (copy_plan_spec.2 sampleYearData 0 false (fun i => toString i) sampleMonth
      sampleFreshMonth (by decide) (by decide) (by decide) (Or.inl (by decide))).1⟩

/-- C9: reordering is a pure permutation of the category sequence
(whatever id and direction are given), and moving the first category up
or the last category down leaves the month unchanged. -/
theorem move_category_spec :
    (∀ (m : MonthBudget) (id : String) (dir : MoveDirection),
        List.Perm (moveCategory m id dir).categories m.categories)
  ∧ (∀ (m : MonthBudget) (c : Category) (rest : List Category),
        m.categories = c :: rest → moveCategory m c.id .UP = m)
  ∧ (∀ (m : MonthBudget) (init : List Category) (x : Category),
        m.categories = init ++ [x] → (∀ c ∈ init, c.id ≠ x.id) →
        moveCategory m x.id .DOWN = m) := by
  refine ⟨?_, ?_, ?_⟩
  · intro m id dir
    unfold moveCategory
    cases hidx : m.categories.findIdx? (fun c => c.id == id) with
    | none => exact List.Perm.refl _
    | some index =>
      cases dir with
      | UP =>
        dsimp only
        split
        · exact List.Perm.refl _
        next hcond =>
          cases hrem : m.categories[index]? with
          | none => exact List.Perm.refl _
          | some removed =>
            obtain ⟨hlt, hget⟩ := List.getElem?_eq_some.mp hrem
            push_neg at hcond
            have h1 : ((index : Int) - 1).toNat ≤ (m.categories.eraseIdx index).length := by
              rw [List.length_eraseIdx, if_pos hlt]
              omega
            dsimp only
            refine (List.perm_insertIdx removed (m.categories.eraseIdx index) h1).trans ?_
            have hp := cons_getElem_eraseIdx_perm m.categories index hlt
            rw [hget] at hp
            exact hp
      | DOWN =>
        dsimp only
        split
        · exact List.Perm.refl _
        next hcond =>
          cases hrem : m.categories[index]? with
          | none => exact List.Perm.refl _
          | some removed =>
            obtain ⟨hlt, hget⟩ := List.getElem?_eq_some.mp hrem
            push_neg at hcond
            have h1 : ((index : Int) + 1).toNat ≤ (m.categories.eraseIdx index).length := by
              rw [List.length_eraseIdx, if_pos hlt]
              omega
            dsimp only
            refine (List.perm_insertIdx removed (m.categories.eraseIdx index) h1).trans ?_
            have hp := cons_getElem_eraseIdx_perm m.categories index hlt
            rw [hget] at hp
            exact hp
  · intro m c rest hcats
    unfold moveCategory
    rw [hcats, List.findIdx?_cons, if_pos (by simp)]
    dsimp only
    rw [if_pos (Or.inl (by norm_num))]
  · intro m init x hcats hne
    unfold moveCategory
    rw [hcats,
      findIdx?_append_singleton _ init x (fun c hc => by simp [hne c hc]) (by simp) 0]
    dsimp only
    rw [if_pos (Or.inr (by
      simp only [List.length_append, List.length_singleton]
      push_cast
      omega))]

/-- Witness for C9: both boundary no-ops on `sampleMonth`, and the
permutation fact for an interior move. -/
theorem move_category_spec_witness :
    sampleMonth.categories = sampleX :: [sampleY]
  ∧ sampleMonth.categories = [sampleX] ++ [sampleY]
  ∧ (∀ c ∈ [sampleX], c.id ≠ sampleY.id)
  ∧ moveCategory sampleMonth "x" .UP = sampleMonth
  ∧ moveCategory sampleMonth "y" .DOWN = sampleMonth
  ∧ List.Perm (moveCategory sampleMonth "x" .DOWN).categories sampleMonth.categories :=
  ⟨by decide, by decide, by decide,
    move_category_spec.2.1 sampleMonth sampleX [sampleY] (by decide),
    move_category_spec.2.2 sampleMonth [sampleX] sampleY (by decide) (by decide),
    move_category_spec.1 sampleMonth "x" .DOWN⟩

end Mango
